import Mathlib

/-!
# elf-builder: the byte emitter and the image builder

A shallow embedding of `src/main.cpp`.

* A byte (`uint8_t`) is a natural number; `static_cast<uint8_t>` is `% 256`.
* A `uint64_t` is a natural number reduced `% 2 ^ 64` wherever the source
  converts to the type or does arithmetic in it.
* `std::vector<uint8_t>` is `List Nat`.
* The class `Builder` is a structure holding the private member `output`; its
  member functions take the builder and give back the builder they leave.
-/

namespace ElfBuilder

/-- The constant `virtualStartAddress` of the source. -/
def virtualStartAddress : Nat := 0x400000

/-- The constant `dataVirtualStartAddress` of the source. -/
def dataVirtualStartAddress : Nat := 0x600000

/-- The constant `alignment` of the source. -/
def alignment : Nat := 0x200000

/-- Conversion of a value to `uint64_t`. -/
def toU64 (v : Nat) : Nat := v % 2 ^ 64

/-- The byte stored by `buf[i] = static_cast<uint8_t>(value >> (i * 8))`. -/
def shiftedByte (value i : Nat) : Nat := (value >>> (i * 8)) % 256

/-- The class `Builder`: its only member is the private vector `output`. -/
structure Builder where
  output : List Nat
deriving DecidableEq

namespace Builder

/-- A default-constructed builder, as declared by `Builder o;`. -/
def new : Builder := ⟨[]⟩

/-- The member `WriteBytes`: `output.insert(output.end(), bytes.begin(), bytes.end())`. -/
def WriteBytes (o : Builder) (bytes : List Nat) : Builder :=
  ⟨o.output ++ bytes⟩

/-- The `for` loop of `WriteValue`: `remaining` iterations are left, the loop
variable is `i`, and each iteration stores one byte at `buf[i]`. -/
def WriteValue.loop (value : Nat) : Nat → Nat → List Nat → List Nat
  | 0, _, buf => buf
  | remaining + 1, i, buf =>
      WriteValue.loop value remaining (i + 1) (buf.set i (shiftedByte value i))

/-- The member `WriteValue`: a zero-filled buffer of `size` bytes is filled by
the loop and handed to `WriteBytes`. The parameter `value` is a `uint64_t`.
The source shifts by `i * 8`, which C++ defines for `i * 8 < 64` only, so the
embedding follows the source for `size ≤ 8`; every call in the source has
`size = 8`. -/
def WriteValue (o : Builder) (size : Nat) (value : Nat) : Builder :=
  let buf := List.replicate size 0
  let buf := WriteValue.loop (toU64 value) size 0 buf
  o.WriteBytes buf

/-- The member `GetOutput`: returns a copy of `output`; the builder is the
second component. -/
def GetOutput (o : Builder) : List Nat × Builder := (o.output, o)

end Builder

/-- The function `buildELF` of the source, statement by statement. -/
def buildELF (textSection dataSection : List Nat) : List Nat :=
  let textSize := toU64 textSection.length
  let textOffset := toU64 (0x40 + (2 * 0x38))
  let o := Builder.new
  -- Build ELF Header
  let o := o.WriteBytes [0x7f, 0x45, 0x4c, 0x46]
  let o := o.WriteBytes [0x02]
  let o := o.WriteBytes [0x01]
  let o := o.WriteBytes [0x01]
  let o := o.WriteBytes [0x00]
  let o := o.WriteBytes [0x00]
  let o := o.WriteBytes [0x00, 0x00, 0x00, 0x00, 0x00, 0x00, 0x00]
  let o := o.WriteBytes [0x02, 0x00]
  let o := o.WriteBytes [0x3e, 0x00]
  let o := o.WriteBytes [0x01, 0x00, 0x00, 0x00]
  let o := o.WriteValue 8 (toU64 (virtualStartAddress + textOffset))
  let o := o.WriteBytes [0x40, 0x00, 0x00, 0x00, 0x00, 0x00, 0x00, 0x00]
  let o := o.WriteBytes [0x00, 0x00, 0x00, 0x00, 0x00, 0x00, 0x00, 0x00]
  let o := o.WriteBytes [0x00, 0x00, 0x00, 0x00]
  let o := o.WriteBytes [0x40, 0x00]
  let o := o.WriteBytes [0x38, 0x00]
  let o := o.WriteBytes [0x02, 0x00]
  let o := o.WriteBytes [0x00, 0x00]
  let o := o.WriteBytes [0x00, 0x00]
  let o := o.WriteBytes [0x00, 0x00]
  -- Build Program Header, Text Segment
  let o := o.WriteBytes [0x01, 0x00, 0x00, 0x00]
  let o := o.WriteBytes [0x05, 0x00, 0x00, 0x00]
  let o := o.WriteValue 8 0
  let o := o.WriteValue 8 virtualStartAddress
  let o := o.WriteValue 8 virtualStartAddress
  let o := o.WriteValue 8 textSize
  let o := o.WriteValue 8 textSize
  let o := o.WriteValue 8 alignment
  let dataSize := toU64 dataSection.length
  let dataOffset := toU64 (textOffset + textSize)
  let dataVirtualAddress := toU64 (dataVirtualStartAddress + dataOffset)
  -- Build Program Header, Data Segment
  let o := o.WriteBytes [0x01, 0x00, 0x00, 0x00]
  let o := o.WriteBytes [0x07, 0x00, 0x00, 0x00]
  let o := o.WriteValue 8 dataOffset
  let o := o.WriteValue 8 dataVirtualAddress
  let o := o.WriteValue 8 dataVirtualAddress
  let o := o.WriteValue 8 dataSize
  let o := o.WriteValue 8 dataSize
  let o := o.WriteValue 8 alignment
  -- Output the text segment, then the data segment
  let o := o.WriteBytes textSection
  let o := o.WriteBytes dataSection
  o.GetOutput.1

/-! ## The reader used to state the properties

A conforming little-endian reader: it is not part of the source, it is the
vocabulary in which the decoded fields of the image are stated. -/

/-- Little-endian value of a byte sequence, least-significant byte first. -/
def decodeLE : List Nat → Nat
  | [] => 0
  | b :: bs => b + 256 * decodeLE bs

/-- The `width` bytes of `image` that start at `offset`. -/
def fieldBytes (image : List Nat) (offset width : Nat) : List Nat :=
  (image.drop offset).take width

/-- The little-endian value of the field of `width` bytes at `offset`. -/
def readField (image : List Nat) (offset width : Nat) : Nat :=
  decodeLE (fieldBytes image offset width)

/-- The eight bytes `WriteValue 8` appends for a `uint64_t` value. -/
def le8 (v : Nat) : List Nat :=
  [shiftedByte v 0, shiftedByte v 1, shiftedByte v 2, shiftedByte v 3,
   shiftedByte v 4, shiftedByte v 5, shiftedByte v 6, shiftedByte v 7]

/-- The 64 bytes `buildELF` emits as the file header. -/
def elfHeader : List Nat :=
  [0x7f, 0x45, 0x4c, 0x46, 0x02, 0x01, 0x01, 0x00,
   0x00, 0x00, 0x00, 0x00, 0x00, 0x00, 0x00, 0x00,
   0x02, 0x00, 0x3e, 0x00, 0x01, 0x00, 0x00, 0x00,
   0xb0, 0x00, 0x40, 0x00, 0x00, 0x00, 0x00, 0x00,
   0x40, 0x00, 0x00, 0x00, 0x00, 0x00, 0x00, 0x00,
   0x00, 0x00, 0x00, 0x00, 0x00, 0x00, 0x00, 0x00,
   0x00, 0x00, 0x00, 0x00, 0x40, 0x00, 0x38, 0x00,
   0x02, 0x00, 0x00, 0x00, 0x00, 0x00, 0x00, 0x00]

/-- The 56 bytes `buildELF` emits as the code segment's descriptor, for a `uint64_t` text size. -/
def codeDescriptor (textSize : Nat) : List Nat :=
  [0x01, 0x00, 0x00, 0x00, 0x05, 0x00, 0x00, 0x00]
    ++ (le8 0 ++ (le8 virtualStartAddress ++ (le8 virtualStartAddress
    ++ (le8 textSize ++ (le8 textSize ++ le8 alignment)))))

/-- The 56 bytes `buildELF` emits as the data segment's descriptor, for `uint64_t` values. -/
def dataDescriptor (dataOffset dataVirtualAddress dataSize : Nat) : List Nat :=
  [0x01, 0x00, 0x00, 0x00, 0x07, 0x00, 0x00, 0x00]
    ++ (le8 dataOffset ++ (le8 dataVirtualAddress ++ (le8 dataVirtualAddress
    ++ (le8 dataSize ++ (le8 dataSize ++ le8 alignment)))))

/-! ## The payload built in `main` -/

namespace main

/-- The C string `wordToOutput` of `main`; every character is ASCII, so each is
one byte and `std::strlen` is the number of characters. -/
def wordToOutput : String := "Hello World, this is my tiny executable"

/-- The vector `dataSection` of `main`: `strlen (wordToOutput)` bytes, filled by
`memcpy` with the bytes of the string. -/
def dataSection : List Nat := wordToOutput.toList.map Char.toNat

/-- The byte `wordLen` of `main`: `static_cast<uint8_t>(dataSection.size())`. -/
def wordLen : Nat := dataSection.length % 256

/-- The vector `textSection` of `main`. -/
def textSection : List Nat :=
  [ -- Sys write
    0x48, 0xC7, 0xC0, 0x04, 0x00, 0x00, 0x00,
    0x48, 0xC7, 0xC3, 0x01, 0x00, 0x00, 0x00,
    0x48, 0xC7, 0xC2, wordLen, 0x00, 0x00, 0x00,
    0x48, 0xC7, 0xC1, 0xDA, 0x00, 0x60, 0x00,
    0xcd, 0x80,
    -- Sys exit
    0xb8, 0x01, 0x00, 0x00, 0x00,
    0xbb, 0x00, 0x00, 0x00, 0x00,
    0xcd, 0x80 ]

/-- The vector `data` of `main`, the image that is written to the file. -/
def data : List Nat := buildELF textSection dataSection

end main

/-! ## Lemmas on the byte emitter and on the layout of the image -/

theorem WriteBytes_output (o : Builder) (bytes : List Nat) :
    (o.WriteBytes bytes).output = o.output ++ bytes := rfl

theorem WriteValue_eight (o : Builder) (v : Nat) :
    (o.WriteValue 8 v).output = o.output ++ le8 (toU64 v) := rfl

theorem decodeLE_le8 (v : Nat) (hv : v < 2 ^ 64) : decodeLE (le8 v) = v := by
  simp only [le8, shiftedByte, decodeLE, Nat.shiftRight_eq_div_pow]
  norm_num
  omega

theorem toU64_of_lt (v : Nat) (hv : v < 2 ^ 64) : toU64 v = v :=
  Nat.mod_eq_of_lt hv

theorem toU64_lt (v : Nat) : toU64 v < 2 ^ 64 :=
  Nat.mod_lt _ (by norm_num)

theorem toU64_toU64 (v : Nat) : toU64 (toU64 v) = toU64 v :=
  toU64_of_lt _ (toU64_lt v)

theorem textOffset_eq : toU64 (0x40 + (2 * 0x38)) = 176 := by decide

theorem buildELF_layout (code data : List Nat) :
    buildELF code data =
      elfHeader ++ (codeDescriptor (toU64 code.length)
        ++ (dataDescriptor (toU64 (176 + toU64 code.length))
              (toU64 (dataVirtualStartAddress + toU64 (176 + toU64 code.length)))
              (toU64 data.length)
        ++ (code ++ data))) := by
  simp only [buildELF, Builder.GetOutput, Builder.new, Builder.WriteBytes, WriteValue_eight,
    List.append_assoc, List.nil_append, toU64_toU64, textOffset_eq]
  rfl

theorem shiftedByte_eq (v i : Nat) : shiftedByte v i = v / 256 ^ i % 256 := by
  unfold shiftedByte
  rw [Nat.shiftRight_eq_div_pow, Nat.mul_comm, pow_mul]
  norm_num

theorem take_succ_set (buf : List Nat) (i x : Nat) (h : i < buf.length) :
    (buf.set i x).take (i + 1) = buf.take i ++ [x] := by
  induction buf generalizing i with
  | nil => simp at h
  | cons b bs ih =>
    cases i with
    | zero => simp
    | succ j =>
      have hj : j < bs.length := by simpa using h
      simp [ih j hj]

theorem loop_eq (v : Nat) (k i : Nat) (buf : List Nat) (h : buf.length = i + k) :
    Builder.WriteValue.loop v k i buf = buf.take i ++ (List.range' i k).map (shiftedByte v) := by
  induction k generalizing i buf with
  | zero =>
    have : buf.take i = buf := List.take_of_length_le (by omega)
    simp [Builder.WriteValue.loop, this]
  | succ k ih =>
    have hlen : (buf.set i (shiftedByte v i)).length = (i + 1) + k := by
      simp [h]; omega
    rw [Builder.WriteValue.loop, ih (i + 1) _ hlen, take_succ_set buf i _ (by omega)]
    simp [List.range'_succ]

theorem WriteValue_output (o : Builder) (size v : Nat) :
    (o.WriteValue size v).output
      = o.output ++ (List.range size).map (shiftedByte (toU64 v)) := by
  simp [Builder.WriteValue, Builder.WriteBytes, loop_eq, List.range_eq_range']

theorem elfHeader_length : elfHeader.length = 64 := rfl

theorem codeDescriptor_length (a : Nat) : (codeDescriptor a).length = 56 := rfl

theorem dataDescriptor_length (a b c : Nat) : (dataDescriptor a b c).length = 56 := rfl

theorem fieldBytes_append_right (A B : List Nat) (off w : Nat) (h : A.length ≤ off) :
    fieldBytes (A ++ B) off w = fieldBytes B (off - A.length) w := by
  unfold fieldBytes
  obtain ⟨k, rfl⟩ := Nat.exists_eq_add_of_le h
  rw [List.drop_append, Nat.add_sub_cancel_left]

theorem fieldBytes_append_left (A B : List Nat) (off w : Nat) (h : off + w ≤ A.length) :
    fieldBytes (A ++ B) off w = fieldBytes A off w := by
  unfold fieldBytes
  rw [List.drop_append_of_le_length (by omega),
    List.take_append_of_le_length (by rw [List.length_drop]; omega)]

theorem buildELF_take_header (code data : List Nat) :
    (buildELF code data).take 64 = elfHeader := by
  rw [buildELF_layout]
  exact List.take_left' elfHeader_length

/-- The bytes of the fields of the code segment's descriptor (offsets 0x40 to 0x77). -/
theorem code_descriptor_fields (code data : List Nat) :
    fieldBytes (buildELF code data) 0x40 4 = [1, 0, 0, 0]
      ∧ fieldBytes (buildELF code data) 0x44 4 = [5, 0, 0, 0]
      ∧ fieldBytes (buildELF code data) 0x48 8 = le8 0
      ∧ fieldBytes (buildELF code data) 0x50 8 = le8 virtualStartAddress
      ∧ fieldBytes (buildELF code data) 0x58 8 = le8 virtualStartAddress
      ∧ fieldBytes (buildELF code data) 0x60 8 = le8 (toU64 code.length)
      ∧ fieldBytes (buildELF code data) 0x68 8 = le8 (toU64 code.length)
      ∧ fieldBytes (buildELF code data) 0x70 8 = le8 alignment := by
  rw [buildELF_layout]
  refine ⟨?_, ?_, ?_, ?_, ?_, ?_, ?_, ?_⟩ <;>
    (rw [fieldBytes_append_right _ _ _ _ (by decide)]; rfl)

/-- The bytes of the fields of the data segment's descriptor (offsets 0x78 to 0xAF). -/
theorem data_descriptor_fields (code data : List Nat) :
    fieldBytes (buildELF code data) 0x78 4 = [1, 0, 0, 0]
      ∧ fieldBytes (buildELF code data) 0x7C 4 = [7, 0, 0, 0]
      ∧ fieldBytes (buildELF code data) 0x80 8 = le8 (toU64 (176 + toU64 code.length))
      ∧ fieldBytes (buildELF code data) 0x88 8
          = le8 (toU64 (dataVirtualStartAddress + toU64 (176 + toU64 code.length)))
      ∧ fieldBytes (buildELF code data) 0x90 8
          = le8 (toU64 (dataVirtualStartAddress + toU64 (176 + toU64 code.length)))
      ∧ fieldBytes (buildELF code data) 0x98 8 = le8 (toU64 data.length)
      ∧ fieldBytes (buildELF code data) 0xA0 8 = le8 (toU64 data.length)
      ∧ fieldBytes (buildELF code data) 0xA8 8 = le8 alignment := by
  rw [buildELF_layout]
  refine ⟨?_, ?_, ?_, ?_, ?_, ?_, ?_, ?_⟩ <;>
    (rw [fieldBytes_append_right _ _ _ _ (by decide),
      fieldBytes_append_right _ _ _ _ (by rw [codeDescriptor_length]; decide)]; rfl)

/-- The image split into its 176-byte prefix and the two segments. -/
theorem buildELF_split (code data : List Nat) :
    buildELF code data =
      (elfHeader ++ (codeDescriptor (toU64 code.length)
        ++ dataDescriptor (toU64 (176 + toU64 code.length))
              (toU64 (dataVirtualStartAddress + toU64 (176 + toU64 code.length)))
              (toU64 data.length))) ++ (code ++ data) := by
  rw [buildELF_layout]
  simp only [List.append_assoc]

theorem header_descriptors_length (a b c d : Nat) :
    (elfHeader ++ (codeDescriptor a ++ dataDescriptor b c d)).length = 176 := by
  simp only [List.length_append, elfHeader_length, codeDescriptor_length,
    dataDescriptor_length]

theorem length_buildELF (code data : List Nat) :
    (buildELF code data).length = 176 + code.length + data.length := by
  rw [buildELF_layout]
  simp only [List.length_append, elfHeader_length, codeDescriptor_length, dataDescriptor_length]
  omega

theorem decodeLE_le8_toU64 (v : Nat) : decodeLE (le8 (toU64 v)) = toU64 v :=
  decodeLE_le8 _ (toU64_lt v)

theorem decodeLE_bytes_from (v : Nat) (n s : Nat) :
    decodeLE ((List.range' s n).map (fun i => v / 256 ^ i % 256)) = v / 256 ^ s % 256 ^ n := by
  induction n generalizing s with
  | zero => simp [decodeLE, Nat.mod_one]
  | succ n ih =>
    rw [List.range'_succ, List.map_cons, decodeLE, ih (s + 1), pow_succ 256 s,
      ← Nat.div_div_eq_div_mul, pow_succ 256 n, Nat.mul_comm (256 ^ n) 256, Nat.mod_mul]

theorem decodeLE_bytes (v n : Nat) :
    decodeLE ((List.range n).map (fun i => v / 256 ^ i % 256)) = v % 2 ^ (8 * n) := by
  rw [List.range_eq_range', decodeLE_bytes_from, pow_zero, Nat.div_one, pow_mul]
  norm_num

theorem WriteValue_appended (o : Builder) (n v : Nat) (hv : v < 2 ^ 64) :
    (o.WriteValue n v).output.drop o.output.length
      = (List.range n).map (fun i => v / 256 ^ i % 256) := by
  rw [WriteValue_output, toU64_of_lt v hv, List.drop_left' rfl]
  exact List.map_congr_left (fun i _ => shiftedByte_eq v i)

theorem header_fields (code data : List Nat) :
    fieldBytes (buildELF code data) 0x18 8 = [0xb0, 0, 0x40, 0, 0, 0, 0, 0]
      ∧ fieldBytes (buildELF code data) 0x20 8 = [0x40, 0, 0, 0, 0, 0, 0, 0]
      ∧ fieldBytes (buildELF code data) 0x34 2 = [0x40, 0]
      ∧ fieldBytes (buildELF code data) 0x36 2 = [0x38, 0]
      ∧ fieldBytes (buildELF code data) 0x38 2 = [0x02, 0] := by
  rw [buildELF_layout]
  refine ⟨?_, ?_, ?_, ?_, ?_⟩ <;>
    (rw [fieldBytes_append_left _ _ _ _ (by decide)]; rfl)

theorem drop_header_descriptors (code data : List Nat) :
    (buildELF code data).drop 176 = code ++ data := by
  rw [buildELF_split]
  exact List.drop_left' (header_descriptors_length _ _ _ _)

theorem drop_to_data (code data : List Nat) :
    (buildELF code data).drop (176 + code.length) = data := by
  rw [← List.drop_drop, drop_header_descriptors]
  exact List.drop_left' rfl

/-- The decoded entry point and the decoded fields of the code descriptor. -/
theorem decoded_code_fields (code data : List Nat) (hcode : code.length < 2 ^ 64) :
    readField (buildELF code data) 0x18 8 = 0x4000B0
      ∧ readField (buildELF code data) 0x48 8 = 0
      ∧ readField (buildELF code data) 0x50 8 = 0x400000
      ∧ readField (buildELF code data) 0x60 8 = code.length
      ∧ readField (buildELF code data) 0x68 8 = code.length
      ∧ readField (buildELF code data) 0x70 8 = 0x200000 := by
  obtain ⟨he, -⟩ := header_fields code data
  obtain ⟨-, -, h1, h2, -, h4, h5, h6⟩ := code_descriptor_fields code data
  unfold readField
  rw [he, h1, h2, h4, h5, h6, decodeLE_le8_toU64, toU64_of_lt _ hcode]
  refine ⟨by decide, by decide, by decide, rfl, rfl, by decide⟩

/-- The decoded file offset, virtual address and alignment of the data descriptor. -/
theorem decoded_data_fields (code data : List Nat)
    (hcode : 0x600000 + 0xB0 + code.length < 2 ^ 64) :
    readField (buildELF code data) 0x80 8 = 176 + code.length
      ∧ readField (buildELF code data) 0x88 8 = 0x6000B0 + code.length
      ∧ readField (buildELF code data) 0xA8 8 = 0x200000 := by
  obtain ⟨-, -, h1, h2, -, -, -, h6⟩ := data_descriptor_fields code data
  have e1 : toU64 code.length = code.length := toU64_of_lt _ (by omega)
  have e2 : toU64 (176 + code.length) = 176 + code.length := toU64_of_lt _ (by omega)
  have e3 : toU64 (dataVirtualStartAddress + (176 + code.length))
      = dataVirtualStartAddress + (176 + code.length) :=
    toU64_of_lt _ (by unfold dataVirtualStartAddress; omega)
  unfold readField
  rw [h1, h2, h6, decodeLE_le8_toU64, decodeLE_le8_toU64, e1, e2, e3]
  refine ⟨rfl, ?_, by decide⟩
  unfold dataVirtualStartAddress
  omega

/-- The decoded file size and memory size of the data descriptor. -/
theorem decoded_data_size (code data : List Nat) (hdata : data.length < 2 ^ 64) :
    readField (buildELF code data) 0x98 8 = data.length
      ∧ readField (buildELF code data) 0xA0 8 = data.length := by
  obtain ⟨-, -, -, -, -, h4, h5, -⟩ := data_descriptor_fields code data
  unfold readField
  rw [h4, h5, decodeLE_le8_toU64, toU64_of_lt _ hdata]
  exact ⟨rfl, rfl⟩

theorem main_textSection_length : main.textSection.length = 42 := by decide

theorem main_dataSection_length : main.dataSection.length = 39 := by decide

/-! ## The image builder -/

/-- C1: for all code and data, the image has 0x40 + 2 * 0x38 + length code +
length data = 176 + length code + length data bytes. -/
theorem C1_image_length (code data : List Nat) :
    (buildELF code data).length = 0x40 + 2 * 0x38 + code.length + data.length
      ∧ (buildELF code data).length = 176 + code.length + data.length :=
  ⟨length_buildELF code data, length_buildELF code data⟩

/-- C2: the image is a 176-byte prefix (the 64-byte file header, the 56-byte code
descriptor, the 56-byte data descriptor), then exactly the bytes of code, then
exactly the bytes of data, and nothing after them. -/
theorem C2_image_layout (code data : List Nat) :
    buildELF code data = (buildELF code data).take 176 ++ code ++ data
      ∧ ((buildELF code data).take 176).length = 176
      ∧ (buildELF code data).take 176
          = (buildELF code data).take 64 ++ fieldBytes (buildELF code data) 0x40 0x38
              ++ fieldBytes (buildELF code data) 0x78 0x38
      ∧ ((buildELF code data).take 64).length = 64
      ∧ (fieldBytes (buildELF code data) 0x40 0x38).length = 56
      ∧ (fieldBytes (buildELF code data) 0x78 0x38).length = 56
      ∧ (∀ i, i < code.length → (buildELF code data)[176 + i]? = code[i]?)
      ∧ (∀ j, j < data.length → (buildELF code data)[176 + code.length + j]? = data[j]?)
      ∧ (buildELF code data).drop 176 = code ++ data
      ∧ (buildELF code data).length = 176 + code.length + data.length := by
  have hlen := length_buildELF code data
  have htake : (buildELF code data).take 176
      = elfHeader ++ (codeDescriptor (toU64 code.length)
        ++ dataDescriptor (toU64 (176 + toU64 code.length))
              (toU64 (dataVirtualStartAddress + toU64 (176 + toU64 code.length)))
              (toU64 data.length)) := by
    rw [buildELF_split]
    exact List.take_left' (header_descriptors_length _ _ _ _)
  have hdrop : (buildELF code data).drop 176 = code ++ data := by
    rw [buildELF_split]
    exact List.drop_left' (header_descriptors_length _ _ _ _)
  have hsplit : buildELF code data = (buildELF code data).take 176 ++ (code ++ data) := by
    conv_lhs => rw [← List.take_append_drop 176 (buildELF code data), hdrop]
  have hl176 : ((buildELF code data).take 176).length = 176 := by
    rw [htake]; exact header_descriptors_length _ _ _ _
  have h64 : (buildELF code data).take 64 = elfHeader := buildELF_take_header code data
  have hcd : fieldBytes (buildELF code data) 0x40 0x38 = codeDescriptor (toU64 code.length) := by
    rw [buildELF_layout, fieldBytes_append_right _ _ _ _ (by decide)]
    exact List.take_left' (codeDescriptor_length _)
  have hdd : fieldBytes (buildELF code data) 0x78 0x38
      = dataDescriptor (toU64 (176 + toU64 code.length))
          (toU64 (dataVirtualStartAddress + toU64 (176 + toU64 code.length)))
          (toU64 data.length) := by
    rw [buildELF_layout, fieldBytes_append_right _ _ _ _ (by decide),
      fieldBytes_append_right _ _ _ _ (by rw [codeDescriptor_length]; decide)]
    exact List.take_left' (dataDescriptor_length _ _ _)
  refine ⟨by rw [List.append_assoc]; exact hsplit, hl176, ?_, ?_, ?_, ?_, ?_, ?_, hdrop, hlen⟩
  · rw [htake, h64, hcd, hdd, List.append_assoc]
  · rw [h64]; rfl
  · rw [hcd]; rfl
  · rw [hdd]; rfl
  · intro i hi
    have e : (buildELF code data)[176 + i]? = (code ++ data)[i]? := by
      rw [← List.getElem?_drop, hdrop]
    rw [e, List.getElem?_append_left hi]
  · intro j hj
    have e : (buildELF code data)[176 + code.length + j]? = (code ++ data)[code.length + j]? := by
      rw [Nat.add_assoc, ← List.getElem?_drop, hdrop]
    rw [e, List.getElem?_append_right (Nat.le_add_right _ _), Nat.add_sub_cancel_left]

/-- C3: the first 64 bytes of the image do not depend on the inputs: magic,
class, endianness, version, nine zero bytes, file type, machine, version, entry
point, program-header offset, section-header offset, flags, header size,
program-header entry size, program-header entry count, then zero bytes. -/
theorem C3_file_header (code data : List Nat) :
    (buildELF code data).take 64 =
      [0x7f, 0x45, 0x4c, 0x46] ++ [0x02] ++ [0x01] ++ [0x01]
        ++ [0, 0, 0, 0, 0, 0, 0, 0, 0]
        ++ [0x02, 0x00] ++ [0x3e, 0x00] ++ [0x01, 0x00, 0x00, 0x00]
        ++ [0xb0, 0x00, 0x40, 0x00, 0x00, 0x00, 0x00, 0x00]
        ++ [0x40, 0x00, 0x00, 0x00, 0x00, 0x00, 0x00, 0x00]
        ++ [0, 0, 0, 0, 0, 0, 0, 0]
        ++ [0, 0, 0, 0]
        ++ [0x40, 0x00] ++ [0x38, 0x00] ++ [0x02, 0x00]
        ++ [0, 0, 0, 0, 0, 0] := by
  rw [buildELF_take_header]
  simp only [elfHeader, List.cons_append, List.nil_append]

/-- C4: the entry-point field (8 bytes at 0x18) decodes to virtualStartAddress +
(0x40 + 2 * 0x38) = 0x4000B0, which is the code descriptor's decoded virtual
address plus (176 minus its decoded file offset), the address at which the
first code byte, at index 176 of the image, is mapped. -/
theorem C4_entry_point (code data : List Nat) :
    readField (buildELF code data) 0x18 8 = virtualStartAddress + (0x40 + 2 * 0x38)
      ∧ readField (buildELF code data) 0x18 8 = 0x4000B0
      ∧ readField (buildELF code data) 0x18 8
          = readField (buildELF code data) 0x50 8
              + (176 - readField (buildELF code data) 0x48 8) := by
  obtain ⟨-, -, hoff, hva, -⟩ := code_descriptor_fields code data
  have hentry : fieldBytes (buildELF code data) 0x18 8 = [0xb0, 0, 0x40, 0, 0, 0, 0, 0] := by
    rw [buildELF_layout, fieldBytes_append_left _ _ _ _ (by decide)]; rfl
  unfold readField
  rw [hentry, hoff, hva]
  refine ⟨?_, ?_, ?_⟩ <;> decide

/-- C5, as stated, fails: on empty inputs the permissions field of the code
descriptor does not decode to 7, its write bit 0x2 is clear, and it differs
from the permissions field of the data descriptor. -/
theorem C5_code_permissions_not_rwx :
    readField (buildELF [] []) 0x44 4 ≠ 7
      ∧ (readField (buildELF [] []) 0x44 4).testBit 1 = false
      ∧ readField (buildELF [] []) 0x44 4 ≠ readField (buildELF [] []) 0x7C 4 := by
  obtain ⟨-, hc, -⟩ := code_descriptor_fields [] []
  obtain ⟨-, hd, -⟩ := data_descriptor_fields [] []
  unfold readField
  rw [hc, hd]
  decide

/-- C5, amended: for all code and data the permissions field of the code
descriptor (4 bytes at 0x44) decodes to 5, read bit 0x4 and execute bit 0x1 set
and write bit 0x2 clear, and the permissions field of the data descriptor
(4 bytes at 0x7C) decodes to 7, all three bits set. -/
theorem C5_code_permissions (code data : List Nat) :
    readField (buildELF code data) 0x44 4 = 5
      ∧ (readField (buildELF code data) 0x44 4).testBit 2 = true
      ∧ (readField (buildELF code data) 0x44 4).testBit 1 = false
      ∧ (readField (buildELF code data) 0x44 4).testBit 0 = true
      ∧ readField (buildELF code data) 0x7C 4 = 7
      ∧ (readField (buildELF code data) 0x7C 4).testBit 2 = true
      ∧ (readField (buildELF code data) 0x7C 4).testBit 1 = true
      ∧ (readField (buildELF code data) 0x7C 4).testBit 0 = true := by
  obtain ⟨-, hc, -⟩ := code_descriptor_fields code data
  obtain ⟨-, hd, -⟩ := data_descriptor_fields code data
  unfold readField
  rw [hc, hd]
  decide

/-- C6: for code shorter than 2^64 bytes the code descriptor decodes to type 1,
file offset 0, virtual address = physical address = 0x400000, file size =
memory size = length of code, alignment 0x200000. -/
theorem C6_code_descriptor (code data : List Nat) (hcode : code.length < 2 ^ 64) :
    readField (buildELF code data) 0x40 4 = 1
      ∧ readField (buildELF code data) 0x48 8 = 0
      ∧ readField (buildELF code data) 0x50 8 = 0x400000
      ∧ readField (buildELF code data) 0x58 8 = 0x400000
      ∧ readField (buildELF code data) 0x60 8 = code.length
      ∧ readField (buildELF code data) 0x68 8 = code.length
      ∧ readField (buildELF code data) 0x70 8 = 0x200000 := by
  obtain ⟨h0, -, h1, h2, h3, h4, h5, h6⟩ := code_descriptor_fields code data
  unfold readField
  rw [h0, h1, h2, h3, h4, h5, h6, decodeLE_le8_toU64, toU64_of_lt _ hcode]
  refine ⟨by decide, by decide, by decide, by decide, rfl, rfl, by decide⟩

/-- C6 at a two-byte code segment and a one-byte data segment. -/
theorem C6_code_descriptor_witness :
    [0x90, 0xc3].length < 2 ^ 64
      ∧ readField (buildELF [0x90, 0xc3] [0x41]) 0x40 4 = 1
      ∧ readField (buildELF [0x90, 0xc3] [0x41]) 0x48 8 = 0
      ∧ readField (buildELF [0x90, 0xc3] [0x41]) 0x50 8 = 0x400000
      ∧ readField (buildELF [0x90, 0xc3] [0x41]) 0x58 8 = 0x400000
      ∧ readField (buildELF [0x90, 0xc3] [0x41]) 0x60 8 = [0x90, 0xc3].length
      ∧ readField (buildELF [0x90, 0xc3] [0x41]) 0x68 8 = [0x90, 0xc3].length
      ∧ readField (buildELF [0x90, 0xc3] [0x41]) 0x70 8 = 0x200000 :=
  ⟨by decide, C6_code_descriptor [0x90, 0xc3] [0x41] (by decide)⟩

/-- C7: when 0x600000 + 0xB0 + length code and length data are below 2^64, the
data descriptor decodes to type 1, file offset 176 + length code, virtual
address = physical address = dataVirtualStartAddress + 176 + length code =
0x6000B0 + length code, file size = memory size = length data, alignment
0x200000; and for code of 10 zero bytes and data 1, 2, 3, 4, 5 the file-offset
field decodes to 186. -/
theorem C7_data_descriptor (code data : List Nat)
    (hcode : 0x600000 + 0xB0 + code.length < 2 ^ 64) (hdata : data.length < 2 ^ 64) :
    (readField (buildELF code data) 0x78 4 = 1
      ∧ readField (buildELF code data) 0x80 8 = 176 + code.length
      ∧ readField (buildELF code data) 0x88 8 = dataVirtualStartAddress + 176 + code.length
      ∧ readField (buildELF code data) 0x88 8 = 0x6000B0 + code.length
      ∧ readField (buildELF code data) 0x90 8 = 0x6000B0 + code.length
      ∧ readField (buildELF code data) 0x98 8 = data.length
      ∧ readField (buildELF code data) 0xA0 8 = data.length
      ∧ readField (buildELF code data) 0xA8 8 = 0x200000)
    ∧ readField (buildELF (List.replicate 10 0) [1, 2, 3, 4, 5]) 0x80 8 = 186 := by
  constructor
  · obtain ⟨h0, -, h1, h2, h3, h4, h5, h6⟩ := data_descriptor_fields code data
    have e1 : toU64 code.length = code.length := toU64_of_lt _ (by omega)
    have e2 : toU64 (176 + code.length) = 176 + code.length := toU64_of_lt _ (by omega)
    have e3 : toU64 (dataVirtualStartAddress + (176 + code.length))
        = dataVirtualStartAddress + (176 + code.length) :=
      toU64_of_lt _ (by unfold dataVirtualStartAddress; omega)
    unfold readField
    rw [h0, h1, h2, h3, h4, h5, h6, decodeLE_le8_toU64, decodeLE_le8_toU64,
      decodeLE_le8_toU64, e1, e2, e3, toU64_of_lt _ hdata]
    refine ⟨by decide, rfl, ?_, ?_, ?_, rfl, rfl, by decide⟩ <;>
      (unfold dataVirtualStartAddress; omega)
  · obtain ⟨-, -, h1, -⟩ := data_descriptor_fields (List.replicate 10 0) [1, 2, 3, 4, 5]
    unfold readField
    rw [h1]
    decide

/-- C7 at the scenario input: code of 10 zero bytes, data 1, 2, 3, 4, 5. -/
theorem C7_data_descriptor_witness :
    (0x600000 + 0xB0 + (List.replicate 10 0).length < 2 ^ 64 ∧ [1, 2, 3, 4, 5].length < 2 ^ 64)
      ∧ (readField (buildELF (List.replicate 10 0) [1, 2, 3, 4, 5]) 0x78 4 = 1
        ∧ readField (buildELF (List.replicate 10 0) [1, 2, 3, 4, 5]) 0x80 8
            = 176 + (List.replicate 10 0).length
        ∧ readField (buildELF (List.replicate 10 0) [1, 2, 3, 4, 5]) 0x88 8
            = dataVirtualStartAddress + 176 + (List.replicate 10 0).length
        ∧ readField (buildELF (List.replicate 10 0) [1, 2, 3, 4, 5]) 0x88 8
            = 0x6000B0 + (List.replicate 10 0).length
        ∧ readField (buildELF (List.replicate 10 0) [1, 2, 3, 4, 5]) 0x90 8
            = 0x6000B0 + (List.replicate 10 0).length
        ∧ readField (buildELF (List.replicate 10 0) [1, 2, 3, 4, 5]) 0x98 8
            = [1, 2, 3, 4, 5].length
        ∧ readField (buildELF (List.replicate 10 0) [1, 2, 3, 4, 5]) 0xA0 8
            = [1, 2, 3, 4, 5].length
        ∧ readField (buildELF (List.replicate 10 0) [1, 2, 3, 4, 5]) 0xA8 8 = 0x200000)
      ∧ readField (buildELF (List.replicate 10 0) [1, 2, 3, 4, 5]) 0x80 8 = 186 :=
  ⟨⟨by decide, by decide⟩,
    C7_data_descriptor (List.replicate 10 0) [1, 2, 3, 4, 5] (by decide) (by decide)⟩

/-- C8, as stated, fails: for code of 10 zero bytes and data 1, 2, 3, 4, 5 the
image does not have 195 bytes, and 0x40 + 0x70 + 10 + 5 is not 195. -/
theorem C8_scenario_length_not_195 :
    (buildELF (List.replicate 10 0) [1, 2, 3, 4, 5]).length ≠ 195
      ∧ 0x40 + 0x70 + 10 + 5 ≠ 195 := by
  rw [length_buildELF]
  decide

/-- C8, amended: for code of 10 zero bytes and data 1, 2, 3, 4, 5 the image has
0x40 + 0x70 + 10 + 5 = 191 bytes. -/
theorem C8_scenario_length :
    (buildELF (List.replicate 10 0) [1, 2, 3, 4, 5]).length = 0x40 + 0x70 + 10 + 5
      ∧ (buildELF (List.replicate 10 0) [1, 2, 3, 4, 5]).length = 191 := by
  rw [length_buildELF]
  decide

/-- C9: with both segments empty the image has 0x40 + 0x70 = 176 bytes and the
file-size and memory-size fields of both descriptors (8 bytes each at 0x60,
0x68, 0x98, 0xA0) decode to 0. -/
theorem C9_empty_segments :
    (buildELF [] []).length = 0x40 + 0x70
      ∧ (buildELF [] []).length = 176
      ∧ readField (buildELF [] []) 0x60 8 = 0
      ∧ readField (buildELF [] []) 0x68 8 = 0
      ∧ readField (buildELF [] []) 0x98 8 = 0
      ∧ readField (buildELF [] []) 0xA0 8 = 0 := by
  obtain ⟨-, -, -, -, -, c1, c2, -⟩ := code_descriptor_fields [] []
  obtain ⟨-, -, -, -, -, d1, d2, -⟩ := data_descriptor_fields [] []
  unfold readField
  rw [length_buildELF, c1, c2, d1, d2]
  decide

/-! ## The byte emitter -/

/-- C10: for every builder, every width n among 1, 2, 4, 8 and every 64-bit
value v, WriteValue n v leaves the previous output followed by exactly n
bytes, the i-th of which is (v / 256 ^ i) % 256. -/
theorem C10_WriteValue_little_endian (o : Builder) (n v : Nat)
    (hn : n = 1 ∨ n = 2 ∨ n = 4 ∨ n = 8) (hv : v < 2 ^ 64) :
    (o.WriteValue n v).output = o.output ++ (List.range n).map (fun i => v / 256 ^ i % 256)
      ∧ (o.WriteValue n v).output.take o.output.length = o.output
      ∧ ((o.WriteValue n v).output.drop o.output.length).length = n
      ∧ ∀ i, i < n → (o.WriteValue n v).output[o.output.length + i]? = some (v / 256 ^ i % 256) := by
  have hn8 : n ≤ 8 := by omega
  have hout : (o.WriteValue n v).output
      = o.output ++ (List.range n).map (fun i => v / 256 ^ i % 256) := by
    rw [WriteValue_output, toU64_of_lt v hv]
    congr 1
    exact List.map_congr_left (fun i _ => shiftedByte_eq v i)
  refine ⟨hout, ?_, ?_, ?_⟩
  · rw [hout, List.take_left' rfl]
  · rw [hout, List.drop_left' rfl, List.length_map, List.length_range]
  · intro i hi
    rw [hout, List.getElem?_append_right (Nat.le_add_right _ _), Nat.add_sub_cancel_left,
      List.getElem?_map, List.getElem?_range hi]
    rfl

/-- C10 at a builder holding one byte, width 2 and value 0x1234. -/
theorem C10_WriteValue_little_endian_witness :
    ((2 : Nat) = 1 ∨ (2 : Nat) = 2 ∨ (2 : Nat) = 4 ∨ (2 : Nat) = 8) ∧ 0x1234 < 2 ^ 64
      ∧ ((Builder.mk [0x7f]).WriteValue 2 0x1234).output
          = [0x7f] ++ (List.range 2).map (fun i => 0x1234 / 256 ^ i % 256)
      ∧ ((Builder.mk [0x7f]).WriteValue 2 0x1234).output = [0x7f, 0x34, 0x12] := by
  have h := C10_WriteValue_little_endian (Builder.mk [0x7f]) 2 0x1234 (by decide) (by decide)
  exact ⟨by decide, by decide, h.1, by decide⟩

/-- C11: for every width n among 1, 2, 4, 8 and every 64-bit value v, the n
bytes appended by WriteValue n v decode little-endian to v % 2 ^ (8 * n), which
is v itself when v < 2 ^ (8 * n); the low-order bits are kept otherwise, and
WriteValue 1 300 appends the single byte 300 % 256 = 44. -/
theorem C11_WriteValue_decodes_mod (o : Builder) (n v : Nat)
    (hn : n = 1 ∨ n = 2 ∨ n = 4 ∨ n = 8) (hv : v < 2 ^ 64) :
    decodeLE ((o.WriteValue n v).output.drop o.output.length) = v % 2 ^ (8 * n)
      ∧ (v < 2 ^ (8 * n) → decodeLE ((o.WriteValue n v).output.drop o.output.length) = v)
      ∧ ((o.WriteValue n v).output.drop o.output.length).length = n
      ∧ (o.WriteValue 1 300).output = o.output ++ [300 % 256]
      ∧ (o.WriteValue 1 300).output = o.output ++ [44] := by
  have hn8 : n ≤ 8 := by omega
  have hdec : decodeLE ((o.WriteValue n v).output.drop o.output.length) = v % 2 ^ (8 * n) := by
    rw [WriteValue_appended o n v hv, decodeLE_bytes]
  refine ⟨hdec, ?_, ?_, rfl, rfl⟩
  · intro hfit
    rw [hdec, Nat.mod_eq_of_lt hfit]
  · rw [WriteValue_appended o n v hv, List.length_map, List.length_range]

/-- C11 at a builder holding one byte, width 1 and value 300, which does not fit. -/
theorem C11_WriteValue_decodes_mod_witness :
    ((1 : Nat) = 1 ∨ (1 : Nat) = 2 ∨ (1 : Nat) = 4 ∨ (1 : Nat) = 8) ∧ 300 < 2 ^ 64
      ∧ decodeLE (((Builder.mk [0x7f]).WriteValue 1 300).output.drop
          (Builder.mk [0x7f]).output.length) = 300 % 2 ^ (8 * 1)
      ∧ decodeLE (((Builder.mk [0x7f]).WriteValue 1 300).output.drop
          (Builder.mk [0x7f]).output.length) = 44 := by
  have h := C11_WriteValue_decodes_mod (Builder.mk [0x7f]) 1 300 (by decide) (by decide)
  exact ⟨by decide, by decide, h.1, by decide⟩

/-- C12: for every builder with accumulated output s and every byte sequence
b, GetOutput returns s and leaves the builder unchanged, and after WriteBytes b
a further GetOutput returns s followed by the bytes of b, in order, the earlier
bytes neither altered nor dropped. -/
theorem C12_GetOutput_WriteBytes (o : Builder) (b : List Nat) :
    o.GetOutput.1 = o.output
      ∧ o.GetOutput.2 = o
      ∧ (o.WriteBytes b).GetOutput.1 = o.output ++ b
      ∧ (o.GetOutput.2.WriteBytes b).GetOutput.1 = o.GetOutput.1 ++ b
      ∧ ((o.WriteBytes b).GetOutput.1).take o.output.length = o.output
      ∧ ((o.WriteBytes b).GetOutput.1).drop o.output.length = b
      ∧ ((o.WriteBytes b).GetOutput.1).length = o.output.length + b.length := by
  refine ⟨rfl, rfl, rfl, rfl, ?_, ?_, ?_⟩
  · exact List.take_left' rfl
  · exact List.drop_left' rfl
  · exact List.length_append _ _

/-! ## The image builder: consistency of the image -/

/-- C13: the sizes and counts declared in the file header match what is
emitted. The header-size field (0x34) and the program-header offset (0x20) both
decode to 64, the number of bytes emitted before the first descriptor; the
entry-size field (0x36) decodes to 56, the number of bytes of each of the two
descriptors; the entry count (0x38) decodes to 2; and offset + count * entry
size is textOffset = 176, the index of the first code byte. -/
theorem C13_header_sizes_match (code data : List Nat) :
    readField (buildELF code data) 0x34 2 = 64
      ∧ readField (buildELF code data) 0x20 8 = 64
      ∧ readField (buildELF code data) 0x36 2 = 56
      ∧ readField (buildELF code data) 0x38 2 = 2
      ∧ buildELF code data
          = elfHeader
            ++ (codeDescriptor (toU64 code.length)
            ++ (dataDescriptor (toU64 (176 + toU64 code.length))
                  (toU64 (dataVirtualStartAddress + toU64 (176 + toU64 code.length)))
                  (toU64 data.length)
            ++ (code ++ data)))
      ∧ elfHeader.length = readField (buildELF code data) 0x34 2
      ∧ elfHeader.length = readField (buildELF code data) 0x20 8
      ∧ (codeDescriptor (toU64 code.length)).length = readField (buildELF code data) 0x36 2
      ∧ (dataDescriptor (toU64 (176 + toU64 code.length))
            (toU64 (dataVirtualStartAddress + toU64 (176 + toU64 code.length)))
            (toU64 data.length)).length = readField (buildELF code data) 0x36 2
      ∧ readField (buildELF code data) 0x20 8
          + readField (buildELF code data) 0x38 2 * readField (buildELF code data) 0x36 2 = 176
      ∧ toU64 (0x40 + (2 * 0x38)) = 176
      ∧ (buildELF code data).drop
          (readField (buildELF code data) 0x20 8
            + readField (buildELF code data) 0x38 2 * readField (buildELF code data) 0x36 2)
          = code ++ data := by
  obtain ⟨-, hoff, hsize, hent, hnum⟩ := header_fields code data
  have e1 : readField (buildELF code data) 0x34 2 = 64 := by
    unfold readField; rw [hsize]; decide
  have e2 : readField (buildELF code data) 0x20 8 = 64 := by
    unfold readField; rw [hoff]; decide
  have e3 : readField (buildELF code data) 0x36 2 = 56 := by
    unfold readField; rw [hent]; decide
  have e4 : readField (buildELF code data) 0x38 2 = 2 := by
    unfold readField; rw [hnum]; decide
  rw [e1, e2, e3, e4]
  exact ⟨rfl, rfl, rfl, rfl, buildELF_layout code data, elfHeader_length, elfHeader_length,
    codeDescriptor_length _, dataDescriptor_length _ _ _, rfl, textOffset_eq,
    drop_header_descriptors code data⟩

/-- C14: for the payload built in main (42 bytes of code, 39 bytes of data) the
virtual-address field of the data descriptor decodes to 0x6000DA, which is the
address hardcoded in the code as the little-endian immediate DA 00 60 00 at
indices 24 to 27 of textSection. -/
theorem C14_hardcoded_address_agrees :
    main.textSection.length = 42
      ∧ main.dataSection.length = 39
      ∧ readField (buildELF main.textSection main.dataSection) 0x88 8 = 0x6000DA
      ∧ fieldBytes main.textSection 24 4 = [0xDA, 0x00, 0x60, 0x00]
      ∧ readField main.textSection 24 4 = 0x6000DA
      ∧ readField main.textSection 24 4
          = readField (buildELF main.textSection main.dataSection) 0x88 8 := by
  have hv := (decoded_data_fields main.textSection main.dataSection (by decide)).2.1
  rw [hv]
  refine ⟨by decide, by decide, by decide, by decide, by decide, by decide⟩

/-- C15: when 0x600000 + 0xB0 + length code + length data is below 2^64, the
byte range the data descriptor describes (from its decoded file offset, of its
decoded file size) is exactly data, and it ends at the end of the image. -/
theorem C15_data_range_is_data (code data : List Nat)
    (h : 0x600000 + 0xB0 + code.length + data.length < 2 ^ 64) :
    fieldBytes (buildELF code data) (readField (buildELF code data) 0x80 8)
        (readField (buildELF code data) 0x98 8) = data
      ∧ readField (buildELF code data) 0x80 8 + readField (buildELF code data) 0x98 8
          = (buildELF code data).length := by
  have hoff := (decoded_data_fields code data (by omega)).1
  have hsz := (decoded_data_size code data (by omega)).1
  rw [hoff, hsz, length_buildELF]
  refine ⟨?_, rfl⟩
  unfold fieldBytes
  rw [drop_to_data, List.take_length]

/-- C15 at a two-byte code segment and a three-byte data segment. -/
theorem C15_data_range_is_data_witness :
    0x600000 + 0xB0 + [0x90, 0xc3].length + [0x41, 0x42, 0x43].length < 2 ^ 64
      ∧ fieldBytes (buildELF [0x90, 0xc3] [0x41, 0x42, 0x43])
          (readField (buildELF [0x90, 0xc3] [0x41, 0x42, 0x43]) 0x80 8)
          (readField (buildELF [0x90, 0xc3] [0x41, 0x42, 0x43]) 0x98 8) = [0x41, 0x42, 0x43]
      ∧ readField (buildELF [0x90, 0xc3] [0x41, 0x42, 0x43]) 0x80 8
          + readField (buildELF [0x90, 0xc3] [0x41, 0x42, 0x43]) 0x98 8
          = (buildELF [0x90, 0xc3] [0x41, 0x42, 0x43]).length :=
  ⟨by decide, C15_data_range_is_data [0x90, 0xc3] [0x41, 0x42, 0x43] (by decide)⟩

/-- C16: when 0x600000 + 0xB0 + length code is below 2^64, both descriptors
satisfy the congruence of the loader: decoded virtual address and decoded file
offset are equal modulo the decoded alignment 0x200000, for the code
descriptor (0x400000 and 0) and for the data descriptor (0x6000B0 + length
code and 0xB0 + length code). -/
theorem C16_segments_congruent (code data : List Nat)
    (h : 0x600000 + 0xB0 + code.length < 2 ^ 64) :
    readField (buildELF code data) 0x50 8 % readField (buildELF code data) 0x70 8
        = readField (buildELF code data) 0x48 8 % readField (buildELF code data) 0x70 8
      ∧ readField (buildELF code data) 0x88 8 % readField (buildELF code data) 0xA8 8
        = readField (buildELF code data) 0x80 8 % readField (buildELF code data) 0xA8 8
      ∧ readField (buildELF code data) 0x70 8 = 0x200000
      ∧ readField (buildELF code data) 0xA8 8 = 0x200000
      ∧ readField (buildELF code data) 0x50 8 = 0x400000
      ∧ readField (buildELF code data) 0x48 8 = 0
      ∧ readField (buildELF code data) 0x88 8 = 0x6000B0 + code.length
      ∧ readField (buildELF code data) 0x80 8 = 0xB0 + code.length := by
  obtain ⟨-, coff, cva, -, -, cal⟩ := decoded_code_fields code data (by omega)
  obtain ⟨doff, dva, dal⟩ := decoded_data_fields code data h
  rw [coff, cva, cal, doff, dva, dal]
  refine ⟨by decide, by omega, rfl, rfl, rfl, rfl, rfl, rfl⟩

/-- C16 at a two-byte code segment and a one-byte data segment. -/
theorem C16_segments_congruent_witness :
    0x600000 + 0xB0 + [0x90, 0xc3].length < 2 ^ 64
      ∧ readField (buildELF [0x90, 0xc3] [0x41]) 0x50 8
          % readField (buildELF [0x90, 0xc3] [0x41]) 0x70 8
        = readField (buildELF [0x90, 0xc3] [0x41]) 0x48 8
          % readField (buildELF [0x90, 0xc3] [0x41]) 0x70 8
      ∧ readField (buildELF [0x90, 0xc3] [0x41]) 0x88 8
          % readField (buildELF [0x90, 0xc3] [0x41]) 0xA8 8
        = readField (buildELF [0x90, 0xc3] [0x41]) 0x80 8
          % readField (buildELF [0x90, 0xc3] [0x41]) 0xA8 8 := by
  have h := C16_segments_congruent [0x90, 0xc3] [0x41] (by decide)
  exact ⟨by decide, h.1, h.2.1⟩

/-- C17: for code shorter than 2^64 bytes, the entry point 0x4000B0 lies in the
memory range the code descriptor declares, from its virtual address 0x400000
to that plus its memory size, exactly when length code > 176; so for the
42-byte payload of main the entry point is outside the declared range. -/
theorem C17_entry_in_code_range_iff (code data : List Nat) (hcode : code.length < 2 ^ 64) :
    ((readField (buildELF code data) 0x50 8 ≤ readField (buildELF code data) 0x18 8
        ∧ readField (buildELF code data) 0x18 8
            < readField (buildELF code data) 0x50 8 + readField (buildELF code data) 0x68 8)
      ↔ 0xB0 < code.length)
    ∧ readField (buildELF code data) 0x18 8 = 0x4000B0
    ∧ readField (buildELF code data) 0x50 8 = 0x400000
    ∧ readField (buildELF code data) 0x68 8 = code.length
    ∧ ¬ (readField main.data 0x50 8 ≤ readField main.data 0x18 8
        ∧ readField main.data 0x18 8 < readField main.data 0x50 8 + readField main.data 0x68 8) := by
  obtain ⟨e, -, va, -, ms, -⟩ := decoded_code_fields code data hcode
  obtain ⟨e', -, va', -, ms', -⟩ :=
    decoded_code_fields main.textSection main.dataSection (by decide)
  unfold main.data
  rw [e, va, ms, e', va', ms', main_textSection_length]
  refine ⟨by omega, rfl, rfl, rfl, by omega⟩

/-- C17 at a two-byte code segment, for which the entry point is outside. -/
theorem C17_entry_in_code_range_iff_witness :
    [0x90, 0xc3].length < 2 ^ 64
      ∧ ((readField (buildELF [0x90, 0xc3] [0x41]) 0x50 8
            ≤ readField (buildELF [0x90, 0xc3] [0x41]) 0x18 8
          ∧ readField (buildELF [0x90, 0xc3] [0x41]) 0x18 8
            < readField (buildELF [0x90, 0xc3] [0x41]) 0x50 8
                + readField (buildELF [0x90, 0xc3] [0x41]) 0x68 8)
        ↔ 0xB0 < [0x90, 0xc3].length) :=
  ⟨by decide, (C17_entry_in_code_range_iff [0x90, 0xc3] [0x41] (by decide)).1⟩

/-- C18: buildELF is injective on inputs whose lengths are below 2^64: equal
images come from equal code and equal data. -/
theorem C18_buildELF_injective (code1 data1 code2 data2 : List Nat)
    (hc1 : code1.length < 2 ^ 64) (hd1 : data1.length < 2 ^ 64)
    (hc2 : code2.length < 2 ^ 64) (hd2 : data2.length < 2 ^ 64)
    (h : buildELF code1 data1 = buildELF code2 data2) :
    code1 = code2 ∧ data1 = data2 := by
  have hdl : data1.length = data2.length := by
    rw [← (decoded_data_size code1 data1 hd1).1, ← (decoded_data_size code2 data2 hd2).1, h]
  have hlen : code1.length = code2.length := by
    rw [← (decoded_code_fields code1 data1 hc1).2.2.2.1,
      ← (decoded_code_fields code2 data2 hc2).2.2.2.1, h]
  have hdrop : code1 ++ data1 = code2 ++ data2 := by
    rw [← drop_header_descriptors code1 data1, ← drop_header_descriptors code2 data2, h]
  exact List.append_inj hdrop hlen

/-- C18 at two descriptions of the same one-byte code and two-byte data. -/
theorem C18_buildELF_injective_witness :
    ([0x90].length < 2 ^ 64 ∧ [1, 2].length < 2 ^ 64
        ∧ (List.replicate 1 0x90).length < 2 ^ 64 ∧ (List.range' 1 2).length < 2 ^ 64
        ∧ buildELF [0x90] [1, 2] = buildELF (List.replicate 1 0x90) (List.range' 1 2))
      ∧ [0x90] = List.replicate 1 0x90 ∧ [1, 2] = List.range' 1 2 :=
  ⟨⟨by decide, by decide, by decide, by decide, rfl⟩,
    C18_buildELF_injective [0x90] [1, 2] (List.replicate 1 0x90) (List.range' 1 2)
      (by decide) (by decide) (by decide) (by decide) rfl⟩

end ElfBuilder
